import Mathlib

/-!
# Verification of the pl-predictor scoring and aggregation core

Shallow embedding of the Cloud-Functions backend (`functions/src/index.ts`):
the scoring engine (`calculatePoints`, `getOutcome`), the fixture-finalization
trigger (`calculatePointsOnFixtureUpdate`), the batched aggregation pipeline
(`processPredictionsInBatches`) and the result-entry endpoint
(`updateMatchResult`).

JavaScript runtime values are modelled by `JSVal`.  All numbers occurring in
the scoring core are integral (scores are validated integers 0..20 and the
stats counters are integer counts), so JS numbers are embedded as `Int`, with
`NaN` as a separate constructor.  The string fragment of `Number()` /
`parseInt()` is modelled on decimal-integer literals, which covers every
string the repository can feed them.
-/

namespace PLPredictor

/-- A JavaScript runtime value as it occurs in the scoring core:
an (integral) number, `NaN`, a string, `null`, `undefined`, or a
Firestore `Timestamp` object. -/
inductive JSVal where
  | num (n : Int)
  | nan
  | str (s : String)
  | null
  | undef
  | ts (t : Nat)
deriving DecidableEq, Repr

/-- Digits of a decimal string, as a value; `none` if the string is empty or
contains a non-digit. -/
def digitsVal (cs : List Char) : Option Nat :=
  if cs ≠ [] ∧ cs.all Char.isDigit then
    some (cs.foldl (fun a c => a * 10 + (c.toNat - '0'.toNat)) 0)
  else none

/-- Characters of a string with leading and trailing whitespace removed. -/
def trimList (cs : List Char) : List Char :=
  ((cs.dropWhile Char.isWhitespace).reverse.dropWhile Char.isWhitespace).reverse

/-- JS `Number()` applied to a string (decimal-integer fragment):
the empty/whitespace string converts to `0`, an optionally signed digit
string to its value, anything else to `NaN` (`none`). -/
def jsStringToNumber (s : String) : Option Int :=
  match trimList s.toList with
  | [] => some 0
  | '-' :: rest => (digitsVal rest).map fun n => -(n : Int)
  | '+' :: rest => (digitsVal rest).map fun n => (n : Int)
  | cs => (digitsVal cs).map fun n => (n : Int)

/-- JS `ToNumber` coercion; `none` models `NaN`.  `null` converts to `0`,
`undefined` to `NaN`, and an object (a `Timestamp`) to `NaN` via its
non-numeric string form. -/
def jsToNumber : JSVal → Option Int
  | .num n => some n
  | .nan => none
  | .str s => jsStringToNumber s
  | .null => some 0
  | .undef => none
  | .ts _ => none

/-- JS `===` on the results of `Number()` coercion (plain numbers):
`NaN === x` is false for every `x`. -/
def numEq : Option Int → Option Int → Bool
  | some a, some b => a == b
  | _, _ => false

/-- JS strict equality `===` on raw values: values of different types are
never equal, `NaN` equals nothing (including itself), and two distinct
`Timestamp` objects are distinct references. -/
def jsStrictEq : JSVal → JSVal → Bool
  | .num a, .num b => a == b
  | .str a, .str b => a == b
  | .null, .null => true
  | .undef, .undef => true
  | _, _ => false

/-- JS strict inequality `!==`. -/
def jsStrictNe (x y : JSVal) : Bool := !(jsStrictEq x y)

/-- Lexicographic comparison of strings by code point, as JS compares two
string operands of `<`; a proper prefix is smaller. -/
def charListLt : List Char → List Char → Bool
  | [], [] => false
  | [], _ :: _ => true
  | _ :: _, [] => false
  | a :: as, b :: bs =>
    if a.toNat < b.toNat then true
    else if b.toNat < a.toNat then false
    else charListLt as bs

/-- JS relational `<`: if both operands are strings they compare
lexicographically, otherwise both are coerced with `ToNumber` and the
comparison is false whenever either side is `NaN`. -/
def jsLt (x y : JSVal) : Bool :=
  match x, y with
  | .str a, .str b => charListLt a.toList b.toList
  | _, _ =>
    match jsToNumber x, jsToNumber y with
    | some a, some b => decide (a < b)
    | _, _ => false

/-- JS relational `>`: `x > y` performs the abstract relational comparison
`y < x`. -/
def jsGt (x y : JSVal) : Bool := jsLt y x

/-- JS truthiness, as used by `prediction.calculatedAt` in the idempotence
guard: `0`, `NaN`, `""`, `null` and `undefined` are falsy; a `Timestamp`
object is truthy. -/
def jsTruthy : JSVal → Bool
  | .num n => n != 0
  | .nan => false
  | .str s => s != ""
  | .null => false
  | .undef => false
  | .ts _ => true

/-- JS `parseInt` applied to a string (after `String()` conversion of the
argument): skips leading whitespace, accepts an optional sign followed by
leading digits, and yields `NaN` when no digit is found. -/
def jsParseIntStr (s : String) : JSVal :=
  match s.toList.dropWhile Char.isWhitespace with
  | '-' :: rest =>
    match digitsVal (rest.takeWhile Char.isDigit) with
    | some n => .num (-(n : Int))
    | none => .nan
  | '+' :: rest =>
    match digitsVal (rest.takeWhile Char.isDigit) with
    | some n => .num (n : Int)
    | none => .nan
  | cs =>
    match digitsVal (cs.takeWhile Char.isDigit) with
    | some n => .num (n : Int)
    | none => .nan

/-- JS `parseInt` on a raw value: an integral number parses to itself,
`NaN`, `null`, `undefined` and objects stringify to digit-free text and
parse to `NaN`. -/
def jsParseInt : JSVal → JSVal
  | .num n => .num n
  | .nan => .nan
  | .str s => jsParseIntStr s
  | .null => .nan
  | .undef => .nan
  | .ts _ => .nan

/-- `getOutcome` from `functions/src/index.ts`: home win `"H"`, away win
`"A"`, draw `"D"`, by JS `>` / `<` on the raw arguments. -/
def getOutcome (homeScore awayScore : JSVal) : String :=
  if jsGt homeScore awayScore then "H"
  else if jsLt homeScore awayScore then "A"
  else "D"

/-- `calculatePoints` from `functions/src/index.ts`: 3 for an exact score
match (checked on `Number()`-coerced values, then redundantly with `===` on
the raw values), else 1 for a matching outcome, else 0. -/
def calculatePoints (homePrediction awayPrediction homeScore awayScore : JSVal) : Int :=
  let homePred := jsToNumber homePrediction
  let awayPred := jsToNumber awayPrediction
  let homeActual := jsToNumber homeScore
  let awayActual := jsToNumber awayScore
  if numEq homePred homeActual && numEq awayPred awayActual then 3
  else if jsStrictEq homePrediction homeScore && jsStrictEq awayPrediction awayScore then 3
  else
    let predictedOutcome := getOutcome homePrediction awayPrediction
    let actualOutcome := getOutcome homeScore awayScore
    if predictedOutcome == actualOutcome then 1
    else 0

/-- `isValidScore` from `functions/src/index.ts`: an integer between 0
and 20.  Non-numbers fail `Number.isInteger`. -/
def isValidScore : JSVal → Bool
  | .num n => decide (0 ≤ n) && decide (n ≤ 20)
  | _ => false

/-- A prediction document as returned by the trigger's query
(`{ id: doc.id, ...doc.data() }`).  Score fields are raw JS values because
upstream data may arrive as strings; `pointsEarned` and `calculatedAt` are
`null` until scored. -/
structure PredictionDoc where
  id : String
  fixtureId : String
  gameweek : Int
  userId : String
  homeScore : JSVal
  awayScore : JSVal
  pointsEarned : JSVal
  calculatedAt : JSVal
deriving DecidableEq, Repr

/-- The nested `stats` aggregate of a user document.  All counters are
integral; `accuracyRate` is always written as a `Math.round` result. -/
structure UserStats where
  totalPoints : Int
  exactPredictions : Int
  correctPredictions : Int
  wrongPredictions : Int
  processedPredictionsCount : Int
  accuracyRate : Int
deriving DecidableEq, Repr

/-- The default stats block used when a user document has no `stats` field
(`userDoc.data()?.stats || {...}`). -/
def defaultStats : UserStats :=
  { totalPoints := 0, exactPredictions := 0, correctPredictions := 0,
    wrongPredictions := 0, processedPredictionsCount := 0, accuracyRate := 0 }

/-- A fixture document, with the fields the trigger and the result-entry
endpoint read and write.  `status` is a plain string; the score fields are
raw JS values (`null` until finished). -/
structure FixtureDoc where
  status : String
  homeScore : JSVal
  awayScore : JSVal
  gameweek : Int
deriving DecidableEq, Repr

/-- The document store as the core sees it: the predictions collection and
the users collection (a user id may have no document or no `stats`). -/
structure DBState where
  predictions : List PredictionDoc
  users : String → Option UserStats

/-- Reading a user's current stats: the stored block, or the default when
absent (`userDoc.data()?.stats || {...}`). -/
def readStats (σ : DBState) (userId : String) : UserStats :=
  (σ.users userId).getD defaultStats

/-- A write operation staged into a Firestore batch by the pipeline: either
the per-prediction points write or the per-user stats write. -/
inductive WriteOp where
  | predUpdate (id : String) (points : Int) (calculatedAt : Nat)
  | userUpdate (userId : String) (stats : UserStats)
deriving DecidableEq, Repr

/-- JS `Math.round`: the integer nearest to the (exact) value of its
argument, halves toward positive infinity. -/
def jsMathRound (x : ℚ) : Int := ⌊x + 1 / 2⌋

/-- Round a rational to the nearest integer with ties to even — the
IEEE-754 default rounding, applied to the scaled significand. -/
def roundNearestEvenRat (y : ℚ) : Int :=
  let f := ⌊y⌋
  if y - f < 1 / 2 then f
  else if 1 / 2 < y - f then f + 1
  else if f % 2 = 0 then f else f + 1

/-- The exact value of the IEEE-754 binary64 (double) number nearest to
`x`: round to nearest, ties to even, 53 significand bits.  Overflow and
subnormals are not modelled — every number this repository computes lies
well inside the normal range. -/
def fl64 (x : ℚ) : ℚ :=
  if x = 0 then 0
  else if 0 < x then
    (roundNearestEvenRat (x / 2 ^ (Int.log 2 x - 52)) : ℚ) *
      2 ^ (Int.log 2 x - 52)
  else
    -((roundNearestEvenRat (-x / 2 ^ (Int.log 2 (-x) - 52)) : ℚ) *
      2 ^ (Int.log 2 (-x) - 52))

/-- The per-prediction stats derivation from `processPredictionsInBatches`:
bump the processed count, exactly one of the three outcome counters
(by whether `points` is 3, 1 or 0), add the points, then recompute the
accuracy rate from the new counters as
`Math.round(((correct + exact) / processed) * 100)`, with the addition,
division and multiplication each evaluated in binary64 as JS does
(counter values are assumed exact in binary64, i.e. below `2^53`, as they
are in this repository). -/
def updateStats (currentStats : UserStats) (points : Int) : UserStats :=
  let totalPoints := currentStats.totalPoints + points
  let processedPredictionsCount := currentStats.processedPredictionsCount + 1
  let exactPredictions :=
    currentStats.exactPredictions + (if points = 3 then 1 else 0)
  let correctPredictions :=
    currentStats.correctPredictions + (if points = 1 then 1 else 0)
  let wrongPredictions :=
    currentStats.wrongPredictions + (if points = 0 then 1 else 0)
  let accuracyRate := jsMathRound
    (fl64 (fl64 (fl64 ((correctPredictions : ℚ) + (exactPredictions : ℚ)) /
      (processedPredictionsCount : ℚ)) * 100))
  { totalPoints, exactPredictions, correctPredictions, wrongPredictions,
    processedPredictionsCount, accuracyRate }

/-- The idempotence guard from the pipeline loop:
`prediction.pointsEarned !== null && prediction.calculatedAt`. -/
def alreadyCalculated (p : PredictionDoc) : Bool :=
  jsStrictNe p.pointsEarned .null && jsTruthy p.calculatedAt

/-- Staging one batch: for each prediction of the slice, skip it when the
idempotence guard holds, otherwise stage its points write followed by the
owning user's stats write.  User stats are read fresh from the database as
it stands at the start of the batch — staged writes of the same batch are
not visible to reads before the commit. -/
def stageBatch (σ : DBState) (homeScore awayScore : JSVal) (now : Nat) :
    List PredictionDoc → List WriteOp
  | [] => []
  | p :: rest =>
    if alreadyCalculated p then stageBatch σ homeScore awayScore now rest
    else
      let points := calculatePoints (jsParseInt p.homeScore)
        (jsParseInt p.awayScore) homeScore awayScore
      .predUpdate p.id points now ::
        .userUpdate p.userId (updateStats (readStats σ p.userId) points) ::
          stageBatch σ homeScore awayScore now rest

/-- Applying one committed write to the store.  A prediction write updates
`pointsEarned` and `calculatedAt` of the document with that id; a user write
replaces the user's stats block. -/
def applyOp (σ : DBState) : WriteOp → DBState
  | .predUpdate id points t =>
    { σ with predictions := σ.predictions.map fun p =>
        if p.id = id then
          { p with pointsEarned := .num points, calculatedAt := .ts t }
        else p }
  | .userUpdate userId stats =>
    { σ with users := fun u => if u = userId then some stats else σ.users u }

/-- Committing a batch: its writes are applied in staging order. -/
def commitBatch (σ : DBState) (ops : List WriteOp) : DBState :=
  ops.foldl applyOp σ

/-- `BATCH_SIZE` from `processPredictionsInBatches`. -/
def BATCH_SIZE : Nat := 500

/-- The slicing `predictions.slice(i, i + BATCH_SIZE)` of the pipeline's
`for` loop: consecutive chunks of at most `BATCH_SIZE` predictions, in
enumeration order. -/
def chunked (l : List PredictionDoc) : List (List PredictionDoc) :=
  match l with
  | [] => []
  | x :: xs =>
    (x :: xs).take BATCH_SIZE :: chunked ((x :: xs).drop BATCH_SIZE)
termination_by l.length
decreasing_by simp [BATCH_SIZE]; omega

/-- The body of the pipeline's `for` loop: stage each chunk against the
current store, commit it, and move to the next chunk; batches commit
sequentially in chunk order.  Returns the final store and the committed
batches. -/
def runBatches (homeScore awayScore : JSVal) (now : Nat) (σ : DBState) :
    List (List PredictionDoc) → DBState × List (List WriteOp)
  | [] => (σ, [])
  | chunk :: rest =>
    let ops := stageBatch σ homeScore awayScore now chunk
    let σ₂ := commitBatch σ ops
    let r := runBatches homeScore awayScore now σ₂ rest
    (r.1, ops :: r.2)

/-- `processPredictionsInBatches` from `functions/src/index.ts`: slice the
prediction list into `BATCH_SIZE` chunks and commit them sequentially.
The `fixtureId` and `gameweek` arguments are carried (as in the source) but
only used for logging there. -/
def processPredictionsInBatches (σ : DBState) (predictions : List PredictionDoc)
    (homeScore awayScore : JSVal) (fixtureId : String) (gameweek : Int)
    (now : Nat) : DBState × List (List WriteOp) :=
  let _ := fixtureId
  let _ := gameweek
  runBatches homeScore awayScore now σ (chunked predictions)

/-- `calculatePointsOnFixtureUpdate` from `functions/src/index.ts`: on a
fixture update, run the pipeline exactly on a non-finished → finished
transition with both scores `!== null` and a non-empty prediction query;
otherwise return with the store untouched.  The boolean records whether
`processPredictionsInBatches` was invoked. -/
def calculatePointsOnFixtureUpdate (σ : DBState) (fixtureId : String)
    (beforeData afterData : FixtureDoc) (now : Nat) : DBState × Bool :=
  let statusChanged :=
    !(beforeData.status == "finished") && (afterData.status == "finished")
  let hasScores :=
    jsStrictNe afterData.homeScore .null && jsStrictNe afterData.awayScore .null
  if !statusChanged || !hasScores then (σ, false)
  else
    let predictions := σ.predictions.filter fun p => p.fixtureId == fixtureId
    if predictions.length = 0 then (σ, false)
    else
      ((processPredictionsInBatches σ predictions afterData.homeScore
          afterData.awayScore fixtureId afterData.gameweek now).1, true)

/-- `updateMatchResult` from `functions/src/index.ts` (the document write it
performs): validate the input, look the fixture up, then write the two
scores and `status: "finished"` in one update.  The current status is never
checked.  Errors model the 400/404 responses. -/
def updateMatchResult (fixtures : String → Option FixtureDoc)
    (fixtureId : String) (homeScore awayScore : JSVal) :
    Except Nat (String → Option FixtureDoc) :=
  if fixtureId = "" || !isValidScore homeScore || !isValidScore awayScore then
    .error 400
  else
    match fixtures fixtureId with
    | none => .error 404
    | some fixture =>
      .ok fun id =>
        if id = fixtureId then
          some { fixture with
            homeScore := homeScore
            awayScore := awayScore
            status := "finished" }
        else fixtures id

/-- One full aggregation run as the trigger performs it on (re)delivery:
query the predictions referencing the fixture from the current store, then
run the batched pipeline on the query results. -/
def runAggregation (σ : DBState) (fixtureId : String)
    (homeScore awayScore : JSVal) (gameweek : Int) (now : Nat) :
    DBState × List (List WriteOp) :=
  processPredictionsInBatches σ
    (σ.predictions.filter fun p => p.fixtureId == fixtureId)
    homeScore awayScore fixtureId gameweek now

/-- Whether a JS value is a string. -/
def isStrVal : JSVal → Bool
  | .str _ => true
  | _ => false

/-- Every user's stored (or defaulted) processed-predictions count is
non-negative. -/
def UsersProcNonneg (σ : DBState) : Prop :=
  ∀ u, 0 ≤ (readStats σ u).processedPredictionsCount

/-- A fixture before finalization, with no scores yet. -/
def fxLive : FixtureDoc :=
  { status := "live", homeScore := .null, awayScore := .null, gameweek := 1 }

/-- The same fixture finalized 2-1. -/
def fxDone : FixtureDoc :=
  { status := "finished", homeScore := .num 2, awayScore := .num 1, gameweek := 1 }

/-- A store with no predictions and no user documents. -/
def emptyDB : DBState := { predictions := [], users := fun _ => none }

/-- An unscored prediction for C4's failing input: user `i` predicted 0-0. -/
def mkTestPrediction (i : Nat) : PredictionDoc :=
  { id := toString i
    fixtureId := "GW1-ARS-CHE"
    gameweek := 1
    userId := toString i
    homeScore := .num 0
    awayScore := .num 0
    pointsEarned := .null
    calculatedAt := .null }

/-- An unscored prediction whose predicted scores are non-numeric strings. -/
def predBadScores : PredictionDoc :=
  { id := "p1"
    fixtureId := "GW1-ARS-CHE"
    gameweek := 1
    userId := "u1"
    homeScore := .str "abc"
    awayScore := .str "xyz"
    pointsEarned := .null
    calculatedAt := .null }

/-- An unscored prediction with numeric scores, 1-0. -/
def predGoodScores : PredictionDoc :=
  { id := "p2"
    fixtureId := "GW1-ARS-CHE"
    gameweek := 1
    userId := "u2"
    homeScore := .num 1
    awayScore := .num 0
    pointsEarned := .null
    calculatedAt := .null }

/-- A store holding exactly the two test predictions. -/
def twoPredsDB : DBState :=
  { predictions := [predBadScores, predGoodScores], users := fun _ => none }

/-- An unscored prediction by user u9, 2-1. -/
def predExact : PredictionDoc :=
  { id := "p9"
    fixtureId := "GW2-TOT-NEW"
    gameweek := 2
    userId := "u9"
    homeScore := .num 2
    awayScore := .num 1
    pointsEarned := .null
    calculatedAt := .null }

/-- The stats block written for u9 after the exact 2-1 prediction is
scored against an actual 2-1. -/
def statsAfterExact : UserStats :=
  { totalPoints := 3
    exactPredictions := 1
    correctPredictions := 0
    wrongPredictions := 0
    processedPredictionsCount := 1
    accuracyRate := 100 }

/-- A reachable stats block: 23 exact and 16 wrong predictions out of 39
processed, 69 points, accuracy 59 = round(23/39*100). -/
def statsBefore23 : UserStats :=
  { totalPoints := 69
    exactPredictions := 23
    correctPredictions := 0
    wrongPredictions := 16
    processedPredictionsCount := 39
    accuracyRate := 59 }

/-- An unscored prediction by user u1 worth 0 points against an actual
1-0 (predicted an away win). -/
def predZero : PredictionDoc :=
  { id := "pz"
    fixtureId := "GW1-ARS-CHE"
    gameweek := 1
    userId := "u1"
    homeScore := .num 0
    awayScore := .num 2
    pointsEarned := .null
    calculatedAt := .null }

/-- A store holding the 0-point prediction and user u1's prior stats. -/
def db23 : DBState :=
  { predictions := [predZero]
    users := fun u => if u = "u1" then some statsBefore23 else none }

end PLPredictor

namespace PLPredictor

/-- `calculatePoints` only ever returns one of the literals `0`, `1`, `3`
(shared range lemma). -/
theorem calculatePoints_range (a b c d : JSVal) :
    calculatePoints a b c d = 0 ∨ calculatePoints a b c d = 1 ∨
      calculatePoints a b c d = 3 := by
  simp only [calculatePoints]
  split_ifs <;> simp

/-- On integer inputs `calculatePoints` reduces to: 3 when exact, else 1 when
the outcomes agree, else 0 (shared normal-form lemma). -/
theorem calculatePoints_num (ph pa ah aa : Int) :
    calculatePoints (.num ph) (.num pa) (.num ah) (.num aa) =
      if ph = ah ∧ pa = aa then 3
      else if getOutcome (.num ph) (.num pa) = getOutcome (.num ah) (.num aa)
        then 1 else 0 := by
  by_cases h1 : ph = ah <;> by_cases h2 : pa = aa <;>
    simp [calculatePoints, jsToNumber, numEq, jsStrictEq, h1, h2]

/-- C1: for all integer scores, `calculatePoints` returns 3 exactly when the
prediction equals the actual result on both legs. -/
theorem calculatePoints_exact_iff_three (ph pa ah aa : Int) :
    calculatePoints (.num ph) (.num pa) (.num ah) (.num aa) = 3 ↔
      ph = ah ∧ pa = aa := by
  rw [calculatePoints_num]
  split_ifs with h h2 <;> simp [h]

/-- C2: for all integer scores where the prediction is not exact,
`calculatePoints` returns 1 exactly when the predicted outcome (via
`getOutcome`, comparing home goals to away goals) equals the actual outcome,
and returns 0 otherwise. -/
theorem calculatePoints_outcome_points (ph pa ah aa : Int)
    (hne : ¬(ph = ah ∧ pa = aa)) :
    (calculatePoints (.num ph) (.num pa) (.num ah) (.num aa) = 1 ↔
      getOutcome (.num ph) (.num pa) = getOutcome (.num ah) (.num aa)) ∧
    (calculatePoints (.num ph) (.num pa) (.num ah) (.num aa) = 0 ↔
      getOutcome (.num ph) (.num pa) ≠ getOutcome (.num ah) (.num aa)) := by
  rw [calculatePoints_num, if_neg hne]
  split_ifs with h <;> simp [h]

/-- Witness for C2 at a concrete non-exact prediction: predicted 1-0 against
an actual 2-0 is a correct home-win outcome and scores 1. -/
theorem calculatePoints_outcome_points_witness :
    (calculatePoints (.num 1) (.num 0) (.num 2) (.num 0) = 1 ↔
      getOutcome (.num 1) (.num 0) = getOutcome (.num 2) (.num 0)) ∧
    (calculatePoints (.num 1) (.num 0) (.num 2) (.num 0) = 0 ↔
      getOutcome (.num 1) (.num 0) ≠ getOutcome (.num 2) (.num 0)) :=
  calculatePoints_outcome_points 1 0 2 0 (by decide)

/-- C9 counterexample: both predicted scores are non-numeric strings
(`Number()` yields `NaN`) and the actual result 0-0 is a draw, yet the
prediction earns 0 points, not 1: `getOutcome` compares two strings
lexicographically, so `"b" > "a"` classifies the prediction as a home win. -/
theorem string_scores_not_draw :
    calculatePoints (.str "b") (.str "a") (.num 0) (.num 0) = 0 ∧
    jsToNumber (.str "b") = none ∧ jsToNumber (.str "a") = none ∧
    getOutcome (.num 0) (.num 0) = "D" ∧
    getOutcome (.str "b") (.str "a") = "H" := by
  refine ⟨by decide, by decide, by decide, by decide, by decide⟩

/-- If the left operand coerces to `NaN` and the operands are not both
strings, JS `<` is false (shared lemma). -/
theorem jsLt_false_left (x y : JSVal) (hx : jsToNumber x = none)
    (h : (isStrVal x && isStrVal y) = false) : jsLt x y = false := by
  cases x <;> cases y <;> simp_all [jsLt, jsToNumber, isStrVal]

/-- If the right operand coerces to `NaN` and the operands are not both
strings, JS `<` is false (shared lemma). -/
theorem jsLt_false_right (x y : JSVal) (hy : jsToNumber y = none)
    (h : (isStrVal x && isStrVal y) = false) : jsLt x y = false := by
  cases x <;> cases y <;> simp_all [jsLt, jsToNumber, isStrVal]

/-- C9 (amended): `calculatePoints` is total and always returns 0, 1 or 3;
and when both predicted scores coerce to `NaN` and are not both strings
(e.g. `NaN` or `undefined`, as produced by a failed `parseInt`), both
comparisons in `getOutcome` are false, the prediction is classified as a
draw, and it earns 1 point whenever the actual result is a draw. -/
theorem calculatePoints_total :
    (∀ a b c d : JSVal,
      calculatePoints a b c d = 0 ∨ calculatePoints a b c d = 1 ∨
        calculatePoints a b c d = 3) ∧
    (∀ hp ap : JSVal, ∀ n : Int,
      jsToNumber hp = none → jsToNumber ap = none →
      ¬((∃ s, hp = .str s) ∧ (∃ s, ap = .str s)) →
      getOutcome hp ap = "D" ∧
        calculatePoints hp ap (.num n) (.num n) = 1) := by
  refine ⟨calculatePoints_range, ?_⟩
  intro hp ap n hhp hap hstr
  have hstr' : (isStrVal hp && isStrVal ap) = false := by
    cases hp <;> cases ap <;>
      first
      | rfl
      | exact absurd ⟨⟨_, rfl⟩, ⟨_, rfl⟩⟩ hstr
  have h1 : jsGt hp ap = false := by
    unfold jsGt
    exact jsLt_false_right ap hp hhp (by rw [Bool.and_comm]; exact hstr')
  have h2 : jsLt hp ap = false := jsLt_false_left hp ap hhp hstr'
  have houtcome : getOutcome hp ap = "D" := by
    simp [getOutcome, h1, h2]
  refine ⟨houtcome, ?_⟩
  have hne1 : numEq (jsToNumber hp) (jsToNumber (.num n)) = false := by
    rw [hhp]; rfl
  have hse1 : jsStrictEq hp (.num n) = false := by
    cases hp <;> simp_all [jsToNumber, jsStrictEq]
  have houtn : getOutcome (.num n) (.num n) = "D" := by
    simp [getOutcome, jsGt, jsLt, jsToNumber]
  simp [calculatePoints, hne1, hse1, houtcome, houtn]

/-- Strict equality with `null` holds exactly for `null` (shared lemma). -/
theorem jsStrictEq_null_iff (x : JSVal) : jsStrictEq x .null = true ↔ x = .null := by
  cases x <;> simp [jsStrictEq]

/-- Strict inequality with `null` holds exactly for non-`null` values
(shared lemma). -/
theorem jsStrictNe_null (x : JSVal) : jsStrictNe x .null = true ↔ x ≠ .null := by
  cases x <;> simp [jsStrictNe, jsStrictEq]

/-- C5 counterexample: a valid non-finished → finished transition with both
scores non-null, on a store holding no predictions for the fixture — every
condition of the claim's invocation criterion holds, yet the trigger
returns without invoking the pipeline. -/
theorem trigger_not_invoked_empty_predictions :
    (calculatePointsOnFixtureUpdate emptyDB "GW1-ARS-CHE" fxLive fxDone 0).2 =
      false ∧
    fxLive.status ≠ "finished" ∧ fxDone.status = "finished" ∧
    fxDone.homeScore ≠ JSVal.null ∧ fxDone.awayScore ≠ JSVal.null := by
  refine ⟨rfl, by decide, rfl, by decide, by decide⟩

/-- C5 (amended): the trigger invokes the aggregation pipeline exactly when
the before-status is not "finished", the after-status is "finished", both
after-scores are `!== null`, and at least one prediction references the
fixture; in every other case it returns with the store untouched. -/
theorem trigger_invocation_characterization (σ : DBState) (fixtureId : String)
    (beforeData afterData : FixtureDoc) (now : Nat) :
    ((calculatePointsOnFixtureUpdate σ fixtureId beforeData afterData now).2 =
        true ↔
      (beforeData.status ≠ "finished" ∧ afterData.status = "finished" ∧
        afterData.homeScore ≠ JSVal.null ∧ afterData.awayScore ≠ JSVal.null ∧
        σ.predictions.filter (fun p => p.fixtureId == fixtureId) ≠ [])) ∧
    ((calculatePointsOnFixtureUpdate σ fixtureId beforeData afterData now).2 =
        false →
      (calculatePointsOnFixtureUpdate σ fixtureId beforeData afterData now).1 =
        σ) := by
  unfold calculatePointsOnFixtureUpdate
  dsimp only
  split_ifs with h1 h2
  · refine ⟨⟨fun hfalse => absurd hfalse (by decide), ?_⟩, fun _ => rfl⟩
    rintro ⟨hb, ha, hh, haw, -⟩
    have hsc : (!(beforeData.status == "finished") &&
        (afterData.status == "finished")) = true := by
      simp [hb, ha]
    have hhs : (jsStrictNe afterData.homeScore JSVal.null &&
        jsStrictNe afterData.awayScore JSVal.null) = true := by
      rw [Bool.and_eq_true]
      exact ⟨(jsStrictNe_null _).mpr hh, (jsStrictNe_null _).mpr haw⟩
    rw [hsc, hhs] at h1
    simp at h1
  · refine ⟨⟨fun hfalse => absurd hfalse (by decide), ?_⟩, fun _ => rfl⟩
    rintro ⟨-, -, -, -, hne⟩
    rw [List.length_eq_zero] at h2
    exact hne h2
  · rw [Bool.not_eq_true, Bool.or_eq_false_iff] at h1
    obtain ⟨hsc, hhs⟩ := h1
    rw [Bool.not_eq_false'] at hsc hhs
    rw [Bool.and_eq_true] at hsc hhs
    obtain ⟨hb, ha⟩ := hsc
    obtain ⟨hh, haw⟩ := hhs
    rw [Bool.not_eq_true', beq_eq_false_iff_ne] at hb
    rw [beq_iff_eq] at ha
    refine ⟨⟨fun _ => ?_, fun _ => rfl⟩, fun hfalse => absurd hfalse (by decide)⟩
    exact ⟨hb, ha, (jsStrictNe_null _).mp hh, (jsStrictNe_null _).mp haw,
      fun hnil => h2 (by rw [hnil]; rfl)⟩

/-- Witness for C5 (amended) at a concrete non-qualifying transition (a
finished → finished re-save): not invoked, store untouched. -/
theorem trigger_invocation_characterization_witness :
    ((calculatePointsOnFixtureUpdate emptyDB "GW1-ARS-CHE" fxDone fxDone 0).2 =
        true ↔
      (fxDone.status ≠ "finished" ∧ fxDone.status = "finished" ∧
        fxDone.homeScore ≠ JSVal.null ∧ fxDone.awayScore ≠ JSVal.null ∧
        emptyDB.predictions.filter (fun p => p.fixtureId == "GW1-ARS-CHE") ≠
          [])) ∧
    ((calculatePointsOnFixtureUpdate emptyDB "GW1-ARS-CHE" fxDone fxDone 0).2 =
        false →
      (calculatePointsOnFixtureUpdate emptyDB "GW1-ARS-CHE" fxDone fxDone
          0).1 = emptyDB) :=
  trigger_invocation_characterization emptyDB "GW1-ARS-CHE" fxDone fxDone 0

/-- C10: once a fixture is "finished", a further `updateMatchResult` call
still succeeds and overwrites both scores, but the written document keeps
status "finished", so the trigger's transition guard rejects the resulting
update event and the predictions are never re-scored. -/
theorem finished_fixture_never_rescored (fixtures : String → Option FixtureDoc)
    (σ : DBState) (fixtureId : String) (fixture : FixtureDoc)
    (homeScore awayScore : JSVal) (now : Nat)
    (hfound : fixtures fixtureId = some fixture)
    (hdone : fixture.status = "finished") (hid : fixtureId ≠ "")
    (hh : isValidScore homeScore = true) (ha : isValidScore awayScore = true) :
    ∃ fixtures₂, updateMatchResult fixtures fixtureId homeScore awayScore =
        .ok fixtures₂ ∧
      fixtures₂ fixtureId = some
        { fixture with
          homeScore := homeScore
          awayScore := awayScore
          status := "finished" } ∧
      calculatePointsOnFixtureUpdate σ fixtureId fixture
          { fixture with
            homeScore := homeScore
            awayScore := awayScore
            status := "finished" } now = (σ, false) := by
  refine ⟨fun id => if id = fixtureId then some
      { fixture with
        homeScore := homeScore
        awayScore := awayScore
        status := "finished" }
    else fixtures id, ?_, ?_, ?_⟩
  · simp [updateMatchResult, hid, hh, ha, hfound]
  · dsimp only
    rw [if_pos rfl]
  · simp [calculatePointsOnFixtureUpdate, hdone]

/-- Witness for C10: a concrete finished fixture, result re-entered 2-0;
the write succeeds but the trigger does not fire the pipeline. -/
theorem finished_fixture_never_rescored_witness :
    ∃ fixtures₂,
      updateMatchResult
          (fun id => if id = "GW3-LIV-MCI" then
            some
              { status := "finished"
                homeScore := .num 1
                awayScore := .num 1
                gameweek := 3 } else none)
          "GW3-LIV-MCI" (.num 2) (.num 0) = .ok fixtures₂ ∧
      fixtures₂ "GW3-LIV-MCI" = some
        { status := "finished"
          homeScore := .num 2
          awayScore := .num 0
          gameweek := 3 } ∧
      calculatePointsOnFixtureUpdate emptyDB "GW3-LIV-MCI"
          { status := "finished"
            homeScore := .num 1
            awayScore := .num 1
            gameweek := 3 }
          { status := "finished"
            homeScore := .num 2
            awayScore := .num 0
            gameweek := 3 } 9 = (emptyDB, false) :=
  finished_fixture_never_rescored
    (fun id => if id = "GW3-LIV-MCI" then
      some
        { status := "finished"
          homeScore := .num 1
          awayScore := .num 1
          gameweek := 3 } else none)
    emptyDB "GW3-LIV-MCI"
    { status := "finished"
      homeScore := .num 1
      awayScore := .num 1
      gameweek := 3 }
    (.num 2) (.num 0) 9 rfl rfl (by decide) (by decide) (by decide)

/-- `chunked` on the empty list (shared lemma). -/
theorem chunked_nil : chunked [] = [] := by
  simp [chunked]

/-- The chunks of the pipeline's slicing concatenate back to the original
prediction list (shared lemma). -/
theorem chunked_flatten (l : List PredictionDoc) : (chunked l).flatten = l := by
  induction l using chunked.induct with
  | case1 => rw [chunked_nil]; rfl
  | case2 x xs ih =>
    rw [chunked]
    simp only [List.flatten_cons, ih, List.take_append_drop]

/-- A nonempty list of at most `BATCH_SIZE` predictions is a single chunk
(shared lemma). -/
theorem chunked_small (l : List PredictionDoc) (hne : l ≠ [])
    (hlen : l.length ≤ BATCH_SIZE) : chunked l = [l] := by
  match l, hne with
  | x :: xs, _ =>
    rw [chunked, List.take_of_length_le hlen, List.drop_eq_nil_of_le hlen,
      chunked_nil]

/-- A batch staged from predictions that all fail the idempotence guard
holds exactly two write operations per prediction (shared lemma). -/
theorem stageBatch_length (σ : DBState) (homeScore awayScore : JSVal)
    (now : Nat) (chunk : List PredictionDoc)
    (hall : ∀ p ∈ chunk, alreadyCalculated p = false) :
    (stageBatch σ homeScore awayScore now chunk).length = 2 * chunk.length := by
  induction chunk with
  | nil => rfl
  | cons p rest ih =>
    rw [stageBatch]
    rw [hall p (List.mem_cons_self p rest)]
    simp only [Bool.false_eq_true, if_false, List.length_cons]
    rw [ih (fun q hq => hall q (List.mem_cons_of_mem p hq))]
    ring

/-- C4 (code bug evaluation): on 251 unscored predictions the pipeline
commits a single batch of 502 write operations — the slicing bounds the
number of predictions per batch by 500, but every prediction stages two
writes, so a committed batch can exceed the 500-operation store limit the
claim states. -/
theorem batch_operations_exceed_limit :
    ((processPredictionsInBatches emptyDB
        ((List.range 251).map mkTestPrediction) (.num 1) (.num 0)
        "GW1-ARS-CHE" 1 0).2.map List.length) = [502] ∧ 500 < 502 := by
  refine ⟨?_, by norm_num⟩
  have hlen : ((List.range 251).map mkTestPrediction).length = 251 := by
    simp
  have hchunks : chunked ((List.range 251).map mkTestPrediction) =
      [(List.range 251).map mkTestPrediction] := by
    apply chunked_small
    · exact List.ne_nil_of_length_pos (by rw [hlen]; norm_num)
    · rw [hlen]; norm_num [BATCH_SIZE]
  have hall : ∀ p ∈ (List.range 251).map mkTestPrediction,
      alreadyCalculated p = false := by
    intro p hp
    rcases List.mem_map.mp hp with ⟨i, -, rfl⟩
    rfl
  unfold processPredictionsInBatches
  rw [hchunks]
  unfold runBatches
  simp only [List.map_cons, List.map_nil, List.cons.injEq, and_true]
  rw [stageBatch_length _ _ _ _ _ hall, hlen]
  exact ⟨by norm_num, rfl⟩

/-- `fl64` at zero (shared lemma). -/
theorem fl64_zero : fl64 0 = 0 := by
  simp [fl64]

/-- Evaluation rule for `fl64` at a positive rational whose binade and
rounded-down significand are given explicitly (shared lemma). -/
theorem fl64_eval (x : ℚ) (e m : Int) (hx : 0 < x)
    (hlow : (2 : ℚ) ^ e ≤ x) (hhigh : x < (2 : ℚ) ^ (e + 1))
    (hm : ⌊x / 2 ^ (e - 52)⌋ = m)
    (hfrac : x / 2 ^ (e - 52) - (m : ℚ) < 1 / 2) :
    fl64 x = (m : ℚ) * 2 ^ (e - 52) := by
  have hb : 1 < 2 := by norm_num
  have hlog : Int.log 2 x = e := by
    have h1 : e ≤ Int.log 2 x := by
      rw [← Int.zpow_le_iff_le_log hb hx]
      exact_mod_cast hlow
    have h2 : Int.log 2 x < e + 1 := by
      rw [← Int.lt_zpow_iff_log_lt hb hx]
      exact_mod_cast hhigh
    omega
  rw [fl64, if_neg (ne_of_gt hx), if_pos hx, hlog]
  simp only [roundNearestEvenRat, hm]
  rw [if_pos hfrac]

/-- `fl64` is the identity at 1 (shared lemma). -/
theorem fl64_one : fl64 (1 : ℚ) = 1 := by
  rw [fl64_eval 1 0 4503599627370496 (by norm_num) (by norm_num) (by norm_num)
    (by norm_num) (by norm_num)]
  norm_num

/-- `fl64` is the identity at 23 (shared lemma). -/
theorem fl64_23 : fl64 (23 : ℚ) = 23 := by
  rw [fl64_eval 23 4 6473924464345088 (by norm_num) (by norm_num)
    (by norm_num) (by norm_num) (by norm_num)]
  norm_num

/-- `fl64` is the identity at 100 (shared lemma). -/
theorem fl64_100 : fl64 (100 : ℚ) = 100 := by
  rw [fl64_eval 100 6 7036874417766400 (by norm_num) (by norm_num)
    (by norm_num) (by norm_num) (by norm_num)]
  norm_num

/-- The double nearest to 23/40 = 0.575 lies just below it
(shared lemma). -/
theorem fl64_d1 :
    fl64 ((23 : ℚ) / 40) = 2589569785738035 / 4503599627370496 := by
  rw [fl64_eval ((23 : ℚ) / 40) (-1) 5179139571476070 (by norm_num)
    (by norm_num) (by norm_num) (by norm_num) (by norm_num)]
  norm_num

/-- Multiplying that double by 100 in binary64 yields
57.49999999999999289…, strictly below 57.5 (shared lemma). -/
theorem fl64_d2 :
    fl64 ((64739244643450875 : ℚ) / 1125899906842624) =
      8092405580431359 / 140737488355328 := by
  rw [fl64_eval ((64739244643450875 : ℚ) / 1125899906842624) 5
    8092405580431359 (by norm_num) (by norm_num) (by norm_num) (by norm_num)
    (by norm_num)]
  norm_num

/-- Scoring a first prediction worth 0 points on empty stats
(shared evaluation lemma). -/
theorem updateStats_default_zero :
    updateStats defaultStats 0 = ⟨0, 0, 0, 1, 1, 0⟩ := by
  simp only [updateStats, defaultStats, jsMathRound, UserStats.mk.injEq]
  norm_num [fl64_zero]

/-- Scoring a first prediction worth 3 points on empty stats
(shared evaluation lemma). -/
theorem updateStats_default_three :
    updateStats defaultStats 3 = ⟨3, 1, 0, 0, 1, 100⟩ := by
  simp only [updateStats, defaultStats, jsMathRound, UserStats.mk.injEq]
  norm_num [fl64_one, fl64_100]

/-- The batch staged for the two test predictions against an actual 1-0
(shared evaluation lemma). -/
theorem stageBatch_twoPreds :
    stageBatch twoPredsDB (.num 1) (.num 0) 5 [predBadScores, predGoodScores] =
      [.predUpdate "p1" 0 5, .userUpdate "u1" ⟨0, 0, 0, 1, 1, 0⟩,
        .predUpdate "p2" 3 5, .userUpdate "u2" ⟨3, 1, 0, 0, 1, 100⟩] := by
  have hpts0 : calculatePoints (jsParseInt predBadScores.homeScore)
      (jsParseInt predBadScores.awayScore) (.num 1) (.num 0) = 0 := by decide
  have hpts3 : calculatePoints (jsParseInt predGoodScores.homeScore)
      (jsParseInt predGoodScores.awayScore) (.num 1) (.num 0) = 3 := by decide
  have hread1 : readStats twoPredsDB predBadScores.userId = defaultStats := rfl
  have hread2 : readStats twoPredsDB predGoodScores.userId = defaultStats := rfl
  rw [stageBatch, if_neg (by decide)]
  simp only [hpts0, hread1, updateStats_default_zero]
  rw [stageBatch, if_neg (by decide)]
  simp only [hpts3, hread2, updateStats_default_three]
  rw [stageBatch]
  simp [predBadScores, predGoodScores]

/-- C8 counterexample: a prediction whose predicted scores are the
non-numeric strings "abc"/"xyz" is NOT skipped by the pipeline: `parseInt`
yields `NaN`, `calculatePoints` still returns 0 against the actual 1-0, and
both `pointsEarned` and `calculatedAt` ARE written for it (first two staged
operations, and the committed document state). -/
theorem nonNumeric_prediction_is_written :
    (processPredictionsInBatches twoPredsDB [predBadScores, predGoodScores]
        (.num 1) (.num 0) "GW1-ARS-CHE" 1 5).2 =
      [[.predUpdate "p1" 0 5,
        .userUpdate "u1" ⟨0, 0, 0, 1, 1, 0⟩,
        .predUpdate "p2" 3 5,
        .userUpdate "u2" ⟨3, 1, 0, 0, 1, 100⟩]] ∧
    ((processPredictionsInBatches twoPredsDB [predBadScores, predGoodScores]
        (.num 1) (.num 0) "GW1-ARS-CHE" 1
        5).1.predictions.map fun p => (p.pointsEarned, p.calculatedAt)) =
      [(.num 0, .ts 5), (.num 3, .ts 5)] := by
  unfold processPredictionsInBatches
  rw [chunked_small [predBadScores, predGoodScores] (by decide) (by decide)]
  unfold runBatches
  dsimp only
  rw [stageBatch_twoPreds]
  exact ⟨rfl, by decide⟩

/-- C8 (amended): a prediction with non-numeric or missing predicted scores
does not abort the batch, but it is not skipped either: it stages its own
points write (with the `NaN`-scored value, 0 or 1) and stats write, and the
remaining predictions of the batch are staged exactly as they would be
without it. -/
theorem nonNumeric_prediction_isolated (σ : DBState)
    (homeScore awayScore : JSVal) (now : Nat) (p : PredictionDoc)
    (rest : List PredictionDoc) (hguard : alreadyCalculated p = false)
    (hh : jsParseInt p.homeScore = .nan) (ha : jsParseInt p.awayScore = .nan) :
    stageBatch σ homeScore awayScore now (p :: rest) =
      .predUpdate p.id (calculatePoints .nan .nan homeScore awayScore) now ::
        .userUpdate p.userId (updateStats (readStats σ p.userId)
          (calculatePoints .nan .nan homeScore awayScore)) ::
          stageBatch σ homeScore awayScore now rest ∧
    (calculatePoints .nan .nan homeScore awayScore = 0 ∨
      calculatePoints .nan .nan homeScore awayScore = 1) := by
  constructor
  · rw [stageBatch, hguard]
    simp only [Bool.false_eq_true, if_false]
    rw [hh, ha]
  · have h3 : calculatePoints .nan .nan homeScore awayScore ≠ 3 := by
      have h1 : numEq (jsToNumber .nan) (jsToNumber homeScore) = false := rfl
      have h2 : jsStrictEq .nan homeScore = false := by
        cases homeScore <;> rfl
      simp only [calculatePoints, h1, h2, Bool.false_and, Bool.false_eq_true,
        if_false]
      split <;> decide
    rcases calculatePoints_range .nan .nan homeScore awayScore with h | h | h
    · exact Or.inl h
    · exact Or.inr h
    · exact absurd h h3

/-- Witness for C8 (amended): the concrete bad-score prediction against an
actual 1-0, staged alone. -/
theorem nonNumeric_prediction_isolated_witness :
    stageBatch emptyDB (.num 1) (.num 0) 5 [predBadScores] =
      .predUpdate predBadScores.id
          (calculatePoints .nan .nan (.num 1) (.num 0)) 5 ::
        .userUpdate predBadScores.userId
          (updateStats (readStats emptyDB predBadScores.userId)
            (calculatePoints .nan .nan (.num 1) (.num 0))) ::
          stageBatch emptyDB (.num 1) (.num 0) 5 [] ∧
    (calculatePoints .nan .nan (.num 1) (.num 0) = 0 ∨
      calculatePoints .nan .nan (.num 1) (.num 0) = 1) :=
  nonNumeric_prediction_isolated emptyDB (.num 1) (.num 0) 5 predBadScores []
    (by decide) (by decide) (by decide)

/-- Every user-stats write staged by one batch is `updateStats` of the
stats read for that user at batch start, with points in `{0, 1, 3}`
(shared lemma). -/
theorem stageBatch_userUpdate_mem (σ : DBState) (homeScore awayScore : JSVal)
    (now : Nat) (chunk : List PredictionDoc) (uid : String) (s : UserStats)
    (hmem : WriteOp.userUpdate uid s ∈
      stageBatch σ homeScore awayScore now chunk) :
    ∃ pts, s = updateStats (readStats σ uid) pts ∧
      (pts = 0 ∨ pts = 1 ∨ pts = 3) := by
  induction chunk with
  | nil => cases hmem
  | cons p rest ih =>
    rw [stageBatch] at hmem
    by_cases hg : alreadyCalculated p
    · rw [if_pos hg] at hmem
      exact ih hmem
    · rw [if_neg hg] at hmem
      dsimp only at hmem
      rcases List.mem_cons.mp hmem with heq | hmem2
      · simp at heq
      · rcases List.mem_cons.mp hmem2 with heq | hmem3
        · injection heq with huid hs
          subst huid
          exact ⟨_, hs, calculatePoints_range _ _ _ _⟩
        · exact ih hmem3

/-- Every user-stats write of a whole pipeline run is `updateStats` of some
read stats block, with points in `{0, 1, 3}` (shared lemma). -/
theorem runBatches_userUpdate_shape (homeScore awayScore : JSVal) (now : Nat)
    (cs : List (List PredictionDoc)) :
    ∀ (σ : DBState) (uid : String) (s : UserStats),
      WriteOp.userUpdate uid s ∈
        (runBatches homeScore awayScore now σ cs).2.flatten →
      ∃ s₀ pts, s = updateStats s₀ pts ∧ (pts = 0 ∨ pts = 1 ∨ pts = 3) := by
  induction cs with
  | nil =>
    intro σ uid s hmem
    cases hmem
  | cons c rest ih =>
    intro σ uid s hmem
    rw [runBatches] at hmem
    dsimp only at hmem
    rw [List.flatten_cons] at hmem
    rcases List.mem_append.mp hmem with h | h
    · obtain ⟨pts, hs, hr⟩ := stageBatch_userUpdate_mem _ _ _ _ _ _ _ h
      exact ⟨readStats σ uid, pts, hs, hr⟩
    · exact ih _ _ _ h

/-- Committing writes whose stats blocks all have a non-negative processed
count preserves non-negativity of every user's processed count
(shared lemma). -/
theorem commitBatch_nonneg (ops : List WriteOp) :
    ∀ (σ : DBState), UsersProcNonneg σ →
      (∀ uid s, WriteOp.userUpdate uid s ∈ ops →
        0 ≤ s.processedPredictionsCount) →
      UsersProcNonneg (commitBatch σ ops) := by
  induction ops with
  | nil => intro σ hσ _; exact hσ
  | cons op rest ih =>
    intro σ hσ hops
    have h1 : UsersProcNonneg (applyOp σ op) := by
      cases op with
      | predUpdate id pts t => exact hσ
      | userUpdate uid s =>
        intro u
        by_cases hu : u = uid
        · have hs := hops uid s (List.mem_cons_self _ _)
          simpa [readStats, applyOp, hu] using hs
        · simpa [readStats, applyOp, hu] using hσ u
    exact ih (applyOp σ op) h1
      (fun uid s hm => hops uid s (List.mem_cons_of_mem _ hm))

/-- Every user-stats write of a pipeline run on a store whose processed
counts are non-negative is `updateStats` of a read block with non-negative
processed count (shared lemma). -/
theorem runBatches_userUpdate_nonneg (homeScore awayScore : JSVal) (now : Nat)
    (cs : List (List PredictionDoc)) :
    ∀ (σ : DBState), UsersProcNonneg σ →
      ∀ (uid : String) (s : UserStats),
        WriteOp.userUpdate uid s ∈
          (runBatches homeScore awayScore now σ cs).2.flatten →
        ∃ s₀ pts, 0 ≤ s₀.processedPredictionsCount ∧ s = updateStats s₀ pts ∧
          (pts = 0 ∨ pts = 1 ∨ pts = 3) := by
  induction cs with
  | nil =>
    intro σ _ uid s hmem
    cases hmem
  | cons c rest ih =>
    intro σ hσ uid s hmem
    rw [runBatches] at hmem
    dsimp only at hmem
    rw [List.flatten_cons] at hmem
    rcases List.mem_append.mp hmem with h | h
    · obtain ⟨pts, hs, hr⟩ := stageBatch_userUpdate_mem _ _ _ _ _ _ _ h
      exact ⟨readStats σ uid, pts, hσ uid, hs, hr⟩
    · refine ih _ ?_ _ _ h
      refine commitBatch_nonneg _ _ hσ ?_
      intro uid2 s2 hm
      obtain ⟨pts2, hs2, -⟩ := stageBatch_userUpdate_mem _ _ _ _ _ _ _ hm
      rw [hs2]
      have h2 := hσ uid2
      show 0 ≤ (readStats σ uid2).processedPredictionsCount + 1
      omega

/-- C6: every user-stats block written by a pipeline run is derived from
that user's read stats by adding 1 to the processed count, adding 1 to
exactly one of the exact (points 3), correct (points 1) or wrong (points 0)
counters, and adding the points to the total — so the sum invariant
`processed = exact + correct + wrong`, if it held for the read stats, holds
for the written stats. -/
theorem userStats_invariant_preserved (σ : DBState)
    (predictions : List PredictionDoc) (homeScore awayScore : JSVal)
    (fixtureId : String) (gameweek : Int) (now : Nat) (uid : String)
    (s : UserStats)
    (hmem : WriteOp.userUpdate uid s ∈
      (processPredictionsInBatches σ predictions homeScore awayScore fixtureId
        gameweek now).2.flatten) :
    ∃ s₀ pts, s = updateStats s₀ pts ∧ (pts = 0 ∨ pts = 1 ∨ pts = 3) ∧
      s.totalPoints = s₀.totalPoints + pts ∧
      s.processedPredictionsCount = s₀.processedPredictionsCount + 1 ∧
      s.exactPredictions = s₀.exactPredictions + (if pts = 3 then 1 else 0) ∧
      s.correctPredictions =
        s₀.correctPredictions + (if pts = 1 then 1 else 0) ∧
      s.wrongPredictions = s₀.wrongPredictions + (if pts = 0 then 1 else 0) ∧
      (if pts = 3 then (1 : Int) else 0) + (if pts = 1 then 1 else 0) +
        (if pts = 0 then 1 else 0) = 1 ∧
      (s₀.processedPredictionsCount =
          s₀.exactPredictions + s₀.correctPredictions + s₀.wrongPredictions →
        s.processedPredictionsCount =
          s.exactPredictions + s.correctPredictions + s.wrongPredictions) := by
  obtain ⟨s₀, pts, hs, hr⟩ := runBatches_userUpdate_shape homeScore awayScore
    now (chunked predictions) σ uid s hmem
  subst hs
  refine ⟨s₀, pts, rfl, hr, rfl, rfl, rfl, rfl, rfl, ?_, ?_⟩
  · rcases hr with h | h | h <;> subst h <;> decide
  · intro hsum
    have e1 : (updateStats s₀ pts).processedPredictionsCount =
        s₀.processedPredictionsCount + 1 := rfl
    have e2 : (updateStats s₀ pts).exactPredictions =
        s₀.exactPredictions + (if pts = 3 then 1 else 0) := rfl
    have e3 : (updateStats s₀ pts).correctPredictions =
        s₀.correctPredictions + (if pts = 1 then 1 else 0) := rfl
    have e4 : (updateStats s₀ pts).wrongPredictions =
        s₀.wrongPredictions + (if pts = 0 then 1 else 0) := rfl
    rw [e1, e2, e3, e4]
    rcases hr with h | h | h <;> subst h <;> simp <;> omega

/-- C7 counterexample: a pipeline run writes a stats block whose counters
are exact = 23, correct = 0, processed = 40 but whose accuracyRate is 57:
`((0 + 23) / 40) * 100` evaluates in binary64 to 57.49999999999999289…, so
`Math.round` gives 57, while round-half-up of the exact 100 * 23 / 40 =
57.5 is 58. -/
theorem accuracyRate_not_exact_half_up :
    WriteOp.userUpdate "u1" (updateStats statsBefore23 0) ∈
      (processPredictionsInBatches db23 [predZero] (.num 1) (.num 0)
        "GW1-ARS-CHE" 1 5).2.flatten ∧
    (updateStats statsBefore23 0).exactPredictions = 23 ∧
    (updateStats statsBefore23 0).correctPredictions = 0 ∧
    (updateStats statsBefore23 0).processedPredictionsCount = 40 ∧
    (updateStats statsBefore23 0).accuracyRate = 57 ∧
    ⌊100 * ((23 : ℚ) + 0) / 40 + 1 / 2⌋ = 58 := by
  have hpts : calculatePoints (jsParseInt predZero.homeScore)
      (jsParseInt predZero.awayScore) (.num 1) (.num 0) = 0 := by decide
  have hread : readStats db23 predZero.userId = statsBefore23 := rfl
  have hstage : stageBatch db23 (.num 1) (.num 0) 5 [predZero] =
      [.predUpdate "pz" 0 5,
        .userUpdate "u1" (updateStats statsBefore23 0)] := by
    rw [stageBatch, if_neg (by decide)]
    simp only [hpts, hread]
    rw [stageBatch]
    simp [predZero]
  refine ⟨?_, by decide, by decide, by decide, ?_, by norm_num⟩
  · unfold processPredictionsInBatches
    rw [chunked_small [predZero] (by decide) (by decide)]
    unfold runBatches
    dsimp only
    rw [hstage]
    simp
  · show jsMathRound (fl64 (fl64 (fl64 _ / _) * 100)) = 57
    norm_num [statsBefore23]
    rw [fl64_23, fl64_d1]
    norm_num
    rw [fl64_d2, jsMathRound]
    norm_num

/-- C7 (amended): every user-stats block written by a pipeline run on a
store with non-negative processed counts has a positive processed count,
and its accuracy rate is `Math.round` of `((correct + exact) / processed)
* 100` with the addition, division and multiplication each rounded to
binary64 as JS evaluates them, recomputed from the written counters.
This can differ by one from round-half-up of the exact
`100 * (exact + correct) / processed` (e.g. at 23/40: 57, not 58). -/
theorem accuracyRate_formula (σ : DBState)
    (predictions : List PredictionDoc) (homeScore awayScore : JSVal)
    (fixtureId : String) (gameweek : Int) (now : Nat) (uid : String)
    (s : UserStats) (hnn : UsersProcNonneg σ)
    (hmem : WriteOp.userUpdate uid s ∈
      (processPredictionsInBatches σ predictions homeScore awayScore fixtureId
        gameweek now).2.flatten) :
    0 < s.processedPredictionsCount ∧
    s.accuracyRate =
      jsMathRound (fl64 (fl64 (fl64
        ((s.correctPredictions : ℚ) + (s.exactPredictions : ℚ)) /
        (s.processedPredictionsCount : ℚ)) * 100)) := by
  obtain ⟨s₀, pts, hnn0, hs, -⟩ := runBatches_userUpdate_nonneg homeScore
    awayScore now (chunked predictions) σ hnn uid s hmem
  subst hs
  constructor
  · show 0 < s₀.processedPredictionsCount + 1
    omega
  · rfl

/-- The batches committed when scoring the single exact prediction 2-1
against an actual 2-1 (shared evaluation lemma). -/
theorem batches_predExact :
    (processPredictionsInBatches emptyDB [predExact] (.num 2) (.num 1)
        "GW2-TOT-NEW" 2 7).2 =
      [[.predUpdate "p9" 3 7, .userUpdate "u9" statsAfterExact]] := by
  unfold processPredictionsInBatches
  rw [chunked_small [predExact] (by decide) (by decide)]
  unfold runBatches
  dsimp only
  have hpts : calculatePoints (jsParseInt predExact.homeScore)
      (jsParseInt predExact.awayScore) (.num 2) (.num 1) = 3 := by decide
  have hread : readStats emptyDB predExact.userId = defaultStats := rfl
  have hstage : stageBatch emptyDB (.num 2) (.num 1) 7 [predExact] =
      [.predUpdate "p9" 3 7, .userUpdate "u9" statsAfterExact] := by
    rw [stageBatch, if_neg (by decide)]
    simp only [hpts, hread, updateStats_default_three]
    rw [stageBatch]
    simp [predExact, statsAfterExact]
  rw [hstage]
  rfl

/-- Witness for C6 at the concrete exact prediction: the written block
`statsAfterExact` decomposes as required. -/
theorem userStats_invariant_preserved_witness :
    ∃ s₀ pts, statsAfterExact = updateStats s₀ pts ∧
      (pts = 0 ∨ pts = 1 ∨ pts = 3) ∧
      statsAfterExact.totalPoints = s₀.totalPoints + pts ∧
      statsAfterExact.processedPredictionsCount =
        s₀.processedPredictionsCount + 1 ∧
      statsAfterExact.exactPredictions =
        s₀.exactPredictions + (if pts = 3 then 1 else 0) ∧
      statsAfterExact.correctPredictions =
        s₀.correctPredictions + (if pts = 1 then 1 else 0) ∧
      statsAfterExact.wrongPredictions =
        s₀.wrongPredictions + (if pts = 0 then 1 else 0) ∧
      (if pts = 3 then (1 : Int) else 0) + (if pts = 1 then 1 else 0) +
        (if pts = 0 then 1 else 0) = 1 ∧
      (s₀.processedPredictionsCount =
          s₀.exactPredictions + s₀.correctPredictions + s₀.wrongPredictions →
        statsAfterExact.processedPredictionsCount =
          statsAfterExact.exactPredictions +
            statsAfterExact.correctPredictions +
            statsAfterExact.wrongPredictions) :=
  userStats_invariant_preserved emptyDB [predExact] (.num 2) (.num 1)
    "GW2-TOT-NEW" 2 7 "u9" statsAfterExact
    (by simp [batches_predExact])

/-- Witness for C7 (amended) at the concrete exact prediction: processed
count 1 > 0 and accuracy 100 = Math.round of the binary64 evaluation of
((0 + 1) / 1) * 100. -/
theorem accuracyRate_formula_witness :
    0 < statsAfterExact.processedPredictionsCount ∧
    statsAfterExact.accuracyRate =
      jsMathRound (fl64 (fl64 (fl64
        ((statsAfterExact.correctPredictions : ℚ) +
          (statsAfterExact.exactPredictions : ℚ)) /
        (statsAfterExact.processedPredictionsCount : ℚ)) * 100)) :=
  accuracyRate_formula emptyDB [predExact] (.num 2) (.num 1) "GW2-TOT-NEW" 2 7
    "u9" statsAfterExact (fun u => le_refl 0)
    (by simp [batches_predExact])

/-- The prediction document written for an unscored prediction passes the
idempotence guard (shared lemma). -/
theorem alreadyCalculated_after_write (q : PredictionDoc) (pts : Int)
    (t : Nat) :
    alreadyCalculated
      { q with pointsEarned := .num pts, calculatedAt := .ts t } = true := rfl

/-- Staging a batch emits the points write for every unscored prediction of
the chunk (shared lemma). -/
theorem stageBatch_predUpdate_mem (σ : DBState) (homeScore awayScore : JSVal)
    (now : Nat) (c : List PredictionDoc) (p : PredictionDoc) (hp : p ∈ c)
    (hup : alreadyCalculated p = false) :
    WriteOp.predUpdate p.id
        (calculatePoints (jsParseInt p.homeScore) (jsParseInt p.awayScore)
          homeScore awayScore) now ∈
      stageBatch σ homeScore awayScore now c := by
  induction c with
  | nil => cases hp
  | cons x rest ih =>
    rw [stageBatch]
    rcases List.mem_cons.mp hp with heq | hmem
    · subst heq
      rw [if_neg (by simp [hup])]
      exact List.mem_cons_self _ _
    · by_cases hg : alreadyCalculated x
      · rw [if_pos hg]
        exact ih hmem
      · rw [if_neg hg]
        exact List.mem_cons_of_mem _ (List.mem_cons_of_mem _ (ih hmem))

/-- Committing a batch acts pointwise on the prediction list: there is a
function of documents that preserves id and fixture reference, preserves
the guard, and scores every document whose id received a points write
(shared lemma). -/
theorem commitBatch_map (ops : List WriteOp) :
    ∀ σ : DBState, ∃ F : PredictionDoc → PredictionDoc,
      (commitBatch σ ops).predictions = σ.predictions.map F ∧
      (∀ q, (F q).id = q.id ∧ (F q).fixtureId = q.fixtureId) ∧
      (∀ q, alreadyCalculated q = true → alreadyCalculated (F q) = true) ∧
      (∀ pid pts t, WriteOp.predUpdate pid pts t ∈ ops →
        ∀ q, q.id = pid → alreadyCalculated (F q) = true) := by
  induction ops with
  | nil =>
    intro σ
    exact ⟨id, (List.map_id _).symm, fun q => ⟨rfl, rfl⟩, fun q hq => hq,
      fun pid pts t hm => absurd hm (List.not_mem_nil _)⟩
  | cons op rest ih =>
    intro σ
    obtain ⟨F, hmap, hpres, hmono, hsc⟩ := ih (applyOp σ op)
    cases op with
    | userUpdate uid s =>
      refine ⟨F, hmap, hpres, hmono, ?_⟩
      intro pid pts t hm q hq
      rcases List.mem_cons.mp hm with heq | hm2
      · simp at heq
      · exact hsc pid pts t hm2 q hq
    | predUpdate pid0 pts0 t0 =>
      refine ⟨fun q => F (if q.id = pid0 then
        { q with pointsEarned := .num pts0, calculatedAt := .ts t0 }
        else q), ?_, ?_, ?_, ?_⟩
      · rw [show (commitBatch σ (WriteOp.predUpdate pid0 pts0 t0 :: rest)) =
          commitBatch (applyOp σ (WriteOp.predUpdate pid0 pts0 t0)) rest
          from rfl, hmap]
        show (σ.predictions.map _).map F = _
        rw [List.map_map]
        rfl
      · intro q
        constructor
        · rw [(hpres _).1]
          split <;> rfl
        · rw [(hpres _).2]
          split <;> rfl
      · intro q hq
        apply hmono
        split
        · exact alreadyCalculated_after_write q pts0 t0
        · exact hq
      · intro pid pts t hm q hq
        rcases List.mem_cons.mp hm with heq | hm2
        · injection heq with h1 h2 h3
          subst h1
          apply hmono
          rw [if_pos hq]
          exact alreadyCalculated_after_write q pts0 t0
        · have hqid : (if q.id = pid0 then
              { q with
                pointsEarned := JSVal.num pts0
                calculatedAt := JSVal.ts t0 }
              else q).id = q.id := by
            split <;> rfl
          exact hsc pid pts t hm2 _ (hqid.trans hq)

/-- A whole pipeline run acts pointwise on the prediction list, preserving
id and fixture reference and the guard, and scoring every document whose id
matches an unscored prediction of some chunk (shared lemma). -/
theorem runBatches_map (homeScore awayScore : JSVal) (now : Nat)
    (cs : List (List PredictionDoc)) :
    ∀ σ : DBState, ∃ F : PredictionDoc → PredictionDoc,
      ((runBatches homeScore awayScore now σ cs).1).predictions =
        σ.predictions.map F ∧
      (∀ q, (F q).id = q.id ∧ (F q).fixtureId = q.fixtureId) ∧
      (∀ q, alreadyCalculated q = true → alreadyCalculated (F q) = true) ∧
      (∀ c ∈ cs, ∀ p ∈ c, alreadyCalculated p = false →
        ∀ q, q.id = p.id → alreadyCalculated (F q) = true) := by
  induction cs with
  | nil =>
    intro σ
    exact ⟨id, (List.map_id _).symm, fun q => ⟨rfl, rfl⟩, fun q hq => hq,
      fun c hc => absurd hc (List.not_mem_nil _)⟩
  | cons c rest ih =>
    intro σ
    obtain ⟨F₂, hmap₂, hpres₂, hmono₂, hsc₂⟩ :=
      ih (commitBatch σ (stageBatch σ homeScore awayScore now c))
    obtain ⟨F₁, hmap₁, hpres₁, hmono₁, hsc₁⟩ :=
      commitBatch_map (stageBatch σ homeScore awayScore now c) σ
    refine ⟨fun q => F₂ (F₁ q), ?_, ?_, ?_, ?_⟩
    · rw [show ((runBatches homeScore awayScore now σ (c :: rest)).1) =
        ((runBatches homeScore awayScore now
          (commitBatch σ (stageBatch σ homeScore awayScore now c))
          rest).1) from rfl, hmap₂, hmap₁, List.map_map]
      rfl
    · intro q
      exact ⟨((hpres₂ _).1).trans (hpres₁ q).1,
        ((hpres₂ _).2).trans (hpres₁ q).2⟩
    · intro q hq
      exact hmono₂ _ (hmono₁ q hq)
    · intro c2 hc2 p hp hup q hq
      rcases List.mem_cons.mp hc2 with hceq | hcr
      · subst hceq
        exact hmono₂ _
          (hsc₁ p.id _ now
            (stageBatch_predUpdate_mem σ homeScore awayScore now c2 p hp hup)
            q hq)
      · exact hsc₂ c2 hcr p hp hup _ (((hpres₁ q).1).trans hq)

/-- After one aggregation run on a fixture, every prediction of the store
referencing that fixture passes the idempotence guard (shared lemma). -/
theorem runAggregation_scores_all (σ : DBState) (fixtureId : String)
    (homeScore awayScore : JSVal) (gameweek : Int) (now : Nat) :
    ∀ q ∈ ((runAggregation σ fixtureId homeScore awayScore gameweek
        now).1).predictions,
      q.fixtureId = fixtureId → alreadyCalculated q = true := by
  intro q hq hfix
  obtain ⟨F, hmap, hpres, hmono, hsc⟩ := runBatches_map homeScore awayScore
    now (chunked (σ.predictions.filter fun p => p.fixtureId == fixtureId)) σ
  rw [show ((runAggregation σ fixtureId homeScore awayScore gameweek
      now).1).predictions =
    ((runBatches homeScore awayScore now σ
      (chunked (σ.predictions.filter fun p =>
        p.fixtureId == fixtureId))).1).predictions from rfl, hmap] at hq
  rcases List.mem_map.mp hq with ⟨p, hpmem, rfl⟩
  have hpfix : p.fixtureId = fixtureId := by
    rw [← (hpres p).2]
    exact hfix
  by_cases hs : alreadyCalculated p
  · exact hmono p hs
  · have hpfilter : p ∈ σ.predictions.filter
        (fun p => p.fixtureId == fixtureId) :=
      List.mem_filter.mpr ⟨hpmem, by simp [hpfix]⟩
    have hflat : p ∈ (chunked (σ.predictions.filter fun p =>
        p.fixtureId == fixtureId)).flatten := by
      rw [chunked_flatten]
      exact hpfilter
    rcases List.mem_flatten.mp hflat with ⟨c, hc, hpc⟩
    exact hsc c hc p hpc (by simpa using hs) p rfl

/-- A batch whose predictions all pass the guard stages no writes
(shared lemma). -/
theorem stageBatch_all_scored (σ : DBState) (homeScore awayScore : JSVal)
    (now : Nat) (c : List PredictionDoc)
    (hall : ∀ p ∈ c, alreadyCalculated p = true) :
    stageBatch σ homeScore awayScore now c = [] := by
  induction c with
  | nil => rfl
  | cons p rest ih =>
    rw [stageBatch, if_pos (hall p (List.mem_cons_self _ _))]
    exact ih fun q hq => hall q (List.mem_cons_of_mem _ hq)

/-- A pipeline run over chunks of already-scored predictions leaves the
store untouched and commits only empty batches (shared lemma). -/
theorem runBatches_noop (homeScore awayScore : JSVal) (now : Nat)
    (cs : List (List PredictionDoc)) :
    ∀ σ : DBState, (∀ c ∈ cs, ∀ p ∈ c, alreadyCalculated p = true) →
      runBatches homeScore awayScore now σ cs = (σ, cs.map fun _ => []) := by
  induction cs with
  | nil => intro σ _; rfl
  | cons c rest ih =>
    intro σ hall
    rw [runBatches]
    rw [stageBatch_all_scored σ homeScore awayScore now c
      (hall c (List.mem_cons_self _ _))]
    rw [show commitBatch σ [] = σ from rfl]
    rw [ih σ fun c2 hc2 => hall c2 (List.mem_cons_of_mem _ hc2)]
    rfl

/-- C3: running the aggregation a second time on the same finalized fixture
is a no-op: every prediction written or skipped by the first run passes the
guard on re-query, so the second run stages zero prediction writes and zero
user-stats writes and leaves the store exactly as after the first run. -/
theorem aggregation_idempotent (σ : DBState) (fixtureId : String)
    (homeScore awayScore : JSVal) (gameweek : Int) (now₁ now₂ : Nat) :
    (runAggregation ((runAggregation σ fixtureId homeScore awayScore gameweek
        now₁).1) fixtureId homeScore awayScore gameweek now₂).1 =
      (runAggregation σ fixtureId homeScore awayScore gameweek now₁).1 ∧
    ((runAggregation ((runAggregation σ fixtureId homeScore awayScore
        gameweek now₁).1) fixtureId homeScore awayScore gameweek
        now₂).2).flatten = [] := by
  have hall : ∀ c ∈ chunked (((runAggregation σ fixtureId homeScore awayScore
      gameweek now₁).1).predictions.filter fun p =>
        p.fixtureId == fixtureId), ∀ p ∈ c, alreadyCalculated p = true := by
    intro c hc p hpc
    have hp : p ∈ ((runAggregation σ fixtureId homeScore awayScore gameweek
        now₁).1).predictions.filter (fun p => p.fixtureId == fixtureId) := by
      have hmem := List.mem_flatten.mpr ⟨c, hc, hpc⟩
      rwa [chunked_flatten] at hmem
    obtain ⟨hpmem, hfix⟩ := List.mem_filter.mp hp
    exact runAggregation_scores_all σ fixtureId homeScore awayScore gameweek
      now₁ p hpmem (by simpa using hfix)
  have hrun := runBatches_noop homeScore awayScore now₂
    (chunked (((runAggregation σ fixtureId homeScore awayScore gameweek
      now₁).1).predictions.filter fun p => p.fixtureId == fixtureId))
    ((runAggregation σ fixtureId homeScore awayScore gameweek now₁).1) hall
  constructor
  · show (runBatches homeScore awayScore now₂ _ _).1 = _
    rw [hrun]
  · show (runBatches homeScore awayScore now₂ _ _).2.flatten = []
    rw [hrun]
    simp

/-- Witness for C9 (amended) at concrete inputs: `NaN` and `undefined`
predicted scores against an actual 2-2 draw classify as a draw and earn
1 point, and the totality clause holds at a sample input. -/
theorem calculatePoints_total_witness :
    (calculatePoints (.str "x") (.num 1) (.num 5) (.num 9) = 0 ∨
      calculatePoints (.str "x") (.num 1) (.num 5) (.num 9) = 1 ∨
      calculatePoints (.str "x") (.num 1) (.num 5) (.num 9) = 3) ∧
    (getOutcome .nan .undef = "D" ∧
      calculatePoints .nan .undef (.num 2) (.num 2) = 1) :=
  ⟨calculatePoints_total.1 (.str "x") (.num 1) (.num 5) (.num 9),
    calculatePoints_total.2 .nan .undef 2 rfl rfl
      (by rintro ⟨⟨s, hs⟩, -⟩; cases hs)⟩

end PLPredictor
